import Mathlib

/-!
Verification of the routing and search core of the question-answering API
(`ask/logic.py`).  Python strings are modelled as `List Char`, Python `int`
as `ℤ`, Python `float` as `ℚ` (with `round` modelled as round-half-to-even
to two decimals), Python `set[str]` as `Finset (List Char)`.  The process
wide cached dataset index (`get_geo_entries` / `get_regulation_blocks`) is
modelled by passing the built index explicitly as a parameter.  The standard
library JSON decoder `json.loads` is modelled abstractly as a parameter
`loads : Str → Except Unit JsonVal` (a decode error becomes `Except.error`).
Wall-clock time (`processing_ms`) is not modelled.
-/

namespace AskLogic

abbrev Str := List Char

/-- Python whitespace as used by `str.strip`, `str.split`, `str.splitlines`
and the regex class in this ASCII corpus: space, tab, newline, carriage
return, vertical tab, form feed. -/
def pyIsSpace (c : Char) : Bool :=
  c = ' ' || c = '\t' || c = '\n' || c = '\x0d' || c = '\x0b' || c = '\x0c'

/-- `str.lower`, restricted to ASCII (the corpus is ASCII). -/
def pyLower (c : Char) : Char := c.toLower

/-- `str.upper`, restricted to ASCII. -/
def pyUpper (c : Char) : Char := c.toUpper

/-- A character matched by `TOKEN_RE = [a-zA-Z0-9]+`. -/
def isTokenChar (c : Char) : Bool :=
  ('a' ≤ c && c ≤ 'z') || ('A' ≤ c && c ≤ 'Z') || ('0' ≤ c && c ≤ '9')

/-- An ASCII decimal digit (`str.isdigit` on this corpus). -/
def isDigitChar (c : Char) : Bool := '0' ≤ c && c ≤ '9'

/-- Helper for `charRuns`: scans the text, accumulating the current run of
characters satisfying `p` (reversed) in `acc`. -/
def runsAux (p : Char → Bool) : Str → Str → List Str
  | [], acc => if acc = [] then [] else [acc.reverse]
  | c :: cs, acc =>
    if p c then runsAux p cs (c :: acc)
    else if acc = [] then runsAux p cs []
    else acc.reverse :: runsAux p cs []

/-- The maximal runs of characters satisfying `p`, in order.  With
`p = isTokenChar` this is `TOKEN_RE.findall`; with `p = not ∘ pyIsSpace`
it is Python's no-argument `str.split`. -/
def charRuns (p : Char → Bool) (s : Str) : List Str := runsAux p s []

/-- Python's no-argument `str.split`: maximal runs of non-whitespace. -/
def pySplit (s : Str) : List Str := charRuns (fun c => !pyIsSpace c) s

/-- `collapse_whitespace(text)`: `" ".join(text.split())`. -/
def collapse_whitespace (text : Str) : Str :=
  List.intercalate [' '] (pySplit text)

/-- Python `str.strip()`: drop leading and trailing whitespace. -/
def pyStrip (s : Str) : Str :=
  ((s.dropWhile pyIsSpace).reverse.dropWhile pyIsSpace).reverse

/-- Python's substring test `needle in hay` (contiguous substring). -/
def isSubstr : Str → Str → Bool
  | n, h =>
    n.isPrefixOf h ||
      match h with
      | [] => false
      | _ :: t => isSubstr n t

/-- The fixed bilingual stopword set `STOPWORDS`. -/
def STOPWORDS : List Str :=
  ["the".toList, "a".toList, "an".toList, "and".toList, "or".toList,
   "to".toList, "of".toList, "in".toList, "on".toList, "for".toList,
   "is".toList, "are".toList, "wat".toList, "waar".toList, "hoe".toList,
   "een".toList, "de".toList, "het".toList, "en".toList, "met".toList,
   "van".toList, "op".toList, "ik".toList, "we".toList, "what".toList,
   "which".toList, "define".toList, "explain".toList, "over".toList,
   "about".toList]

/-- The geo routing keyword set `GEO_KEYWORDS`. -/
def GEO_KEYWORDS : List Str :=
  ["geo".toList, "geodata".toList, "map".toList, "kaart".toList,
   "bodem".toList, "grond".toList, "mobiscore".toList, "overstrom".toList,
   "water".toList, "weg".toList, "lucht".toList, "hoogte".toList,
   "distance".toList, "overlap".toList, "rivier".toList, "gebied".toList]

/-- The regulation routing keyword set `REGULATION_KEYWORDS`. -/
def REGULATION_KEYWORDS : List Str :=
  ["regulation".toList, "verordening".toList, "artikel".toList,
   "art.".toList, "bouw".toList, "bouwvlak".toList, "bouwlaag".toList,
   "bosdecreet".toList, "groen".toList, "vergunning".toList,
   "voorschrift".toList, "bestemming".toList, "sloop".toList,
   "omgevingsvergunning".toList]

/-- `extract_keywords(question)`: lowercase, take maximal alphanumeric runs,
drop stopwords, single-character digits and tokens of length ≤ 2. -/
def extract_keywords (question : Str) : List Str :=
  let tokens := charRuns isTokenChar (question.map pyLower)
  tokens.filter (fun t =>
    ¬ (t ∈ STOPWORDS) ∧ ¬ (t.all isDigitChar ∧ t.length = 1) ∧
      ¬ (t.length ≤ 2))

/-- `normalize_phrase(text)`: `" ".join(TOKEN_RE.findall(text.lower()))`. -/
def normalize_phrase (text : Str) : Str :=
  List.intercalate [' '] (charRuns isTokenChar (text.map pyLower))

/-- Attempt to match `ARTICLE_RE = art\.?\s*(\d+(?:\.\d+)?)` (IGNORECASE)
at the start of `cs`, returning the captured group.  The pattern is
deterministic: after "art", an optional dot is consumed exactly when
present (skipping a present dot cannot lead to a match, since the dot is
neither whitespace nor a digit), then greedy whitespace, then the digits
with an optional single decimal part. -/
def artMatchAt (cs : Str) : Option Str :=
  match cs with
  | c1 :: c2 :: c3 :: rest =>
    if pyLower c1 = 'a' ∧ pyLower c2 = 'r' ∧ pyLower c3 = 't' then
      let rest1 := match rest with
        | '.' :: r => r
        | r => r
      let afterWs := rest1.dropWhile pyIsSpace
      let ds := afterWs.takeWhile isDigitChar
      if ds = [] then none
      else
        match afterWs.drop ds.length with
        | '.' :: r2 =>
          let ds2 := r2.takeWhile isDigitChar
          if ds2 = [] then some ds else some (ds ++ '.' :: ds2)
        | _ => some ds
    else none
  | _ => none

/-- `re.search` with `ARTICLE_RE`: the match at the leftmost position where
one exists. -/
def searchArt : Str → Option Str
  | [] => none
  | c :: cs =>
    match artMatchAt (c :: cs) with
    | some g => some g
    | none => searchArt cs

/-- `match_article_reference(question)`. -/
def match_article_reference (question : Str) : Option Str :=
  (searchArt question).map (fun number => ("art. ".toList ++ number).map pyLower)

/-- `extract_article_id(text)`. -/
def extract_article_id (text : Str) : Option Str :=
  (searchArt text).map (fun number => ("art. ".toList ++ number).map pyLower)

/-- A line-boundary character for Python `str.splitlines` (besides the
two-character boundary CRLF, handled separately). -/
def isLineBoundary (c : Char) : Bool :=
  c = '\n' || c = '\x0d' || c = '\x0b' || c = '\x0c' ||
    c = '\x1c' || c = '\x1d' || c = '\x1e' || c = '\x85' ||
    c = Char.ofNat 0x2028 || c = Char.ofNat 0x2029

/-- Helper for `pySplitlines`, accumulating the current line (reversed);
a carriage return followed by a newline is one boundary (CRLF).  The
`fuel` argument only makes the recursion structural (each step consumes at
least one character, so `fuel = s.length` never runs out and the zero-fuel
fallback is unreachable). -/
def splitlinesAux : Nat → Str → Str → List Str
  | _, [], acc => if acc = [] then [] else [acc.reverse]
  | Nat.succ fuel, c :: cs, acc =>
    if c = '\x0d' then
      match cs with
      | '\n' :: cs2 => acc.reverse :: splitlinesAux fuel cs2 []
      | _ => acc.reverse :: splitlinesAux fuel cs []
    else if isLineBoundary c then acc.reverse :: splitlinesAux fuel cs []
    else splitlinesAux fuel cs (c :: acc)
  | 0, cs, acc => [acc.reverse ++ cs]

/-- Python `str.splitlines()` (without keeping line ends). -/
def pySplitlines (s : Str) : List Str := splitlinesAux s.length s []

/-- A separator match of `\n\s*\n` whose first `\n` was just consumed:
given the text after that first newline, return the number of further
characters the (greedy, backtracking) separator consumes, i.e. the
position just past the last `\n` inside the maximal whitespace run, or
`none` when the whitespace run contains no newline. -/
def findBlockSep (cs : Str) : Option Nat :=
  let w := cs.takeWhile pyIsSpace
  match w.reverse.findIdx? (· = '\n') with
  | none => none
  | some j => some (w.length - j)

/-- Helper for `re.split(r"\n\s*\n", text)`, accumulating the current
piece (reversed).  The `fuel` argument only makes the recursion structural
(each step consumes at least one character, so `fuel = text.length` never
runs out and the zero-fuel fallback is unreachable). -/
def splitRegexAux : Nat → Str → Str → List Str
  | _, [], acc => [acc.reverse]
  | Nat.succ fuel, c :: cs, acc =>
    if c = '\n' then
      match findBlockSep cs with
      | some k => acc.reverse :: splitRegexAux fuel (cs.drop k) []
      | none => splitRegexAux fuel cs ('\n' :: acc)
    else splitRegexAux fuel cs (c :: acc)
  | 0, cs, acc => [acc.reverse ++ cs]

/-- `split_blocks(text)`: split on `\n\s*\n`, strip each piece, keep the
non-blank ones. -/
def split_blocks (text : Str) : List Str :=
  (splitRegexAux text.length text []).filterMap (fun b =>
    let s := pyStrip b
    if s = [] then none else some s)

/-- A parsed JSON value (`json.loads` result).  JSON numbers are modelled
as rationals; Python's int/float distinction and float repr are not
needed by any claim. -/
inductive JsonVal where
  | null
  | bool (b : Bool)
  | num (q : ℚ)
  | str (s : Str)
  | arr (elems : List JsonVal)
  | obj (fields : List (Str × JsonVal))

/-- Python truthiness of an `Optional[str]`. -/
def optStrTruthy : Option Str → Bool
  | none => false
  | some s => s ≠ []

/-- `GeoEntry` (one row of the geo dataset, as built by `get_geo_entries`). -/
structure GeoEntry where
  name : Str
  status : Option Str
  distance_m : Option Str
  overlap_fraction : Option Str
  api_name_raw : Option Str
  api_name_dict : Option (List (Str × JsonVal))
  tokens : Finset Str

/-- `RegulationBlock` (one paragraph of the regulation corpus). -/
structure RegulationBlock where
  raw : Str
  title : Str
  article_id : Option Str
  tokens : Finset Str
deriving DecidableEq

/-- `keyword_score(question, keywords)`: how many keywords occur as
substrings of the lowercased question. -/
def keyword_score (question : Str) (keywords : List Str) : ℤ :=
  let text := question.map pyLower
  ((keywords.filter (fun k => isSubstr k text)).length : ℤ)

/-- `best_overlap_score(tokens, token_sets)`. -/
def best_overlap_score (tokens : Finset Str) (token_sets : List (Finset Str)) : ℤ :=
  if tokens = ∅ then 0
  else token_sets.foldl
    (fun best t =>
      let overlap := (((tokens ∩ t).card : ℤ))
      if best < overlap then overlap else best) 0

/-- `score_match(tokens, entry_tokens, boost)`. -/
def score_match (tokens entry_tokens : Finset Str) (boost : ℤ) : ℤ :=
  ((tokens ∩ entry_tokens).card : ℤ) + boost

/-- `phrase_boost(phrase, question_norm)`. -/
def phrase_boost (phrase : Str) (question_norm : Str) : ℤ :=
  if phrase = [] then 0
  else
    let normalized := normalize_phrase phrase
    if normalized.length < 4 then 0
    else if normalized ≠ [] ∧ isSubstr normalized question_norm then 3 else 0

/-- `compute_route_scores(question, tokens, geo_entries, reg_blocks)`. -/
def compute_route_scores (question : Str) (tokens : Finset Str)
    (geo_entries : List GeoEntry) (reg_blocks : List RegulationBlock) :
    ℤ × ℤ × Option Str :=
  let geo_kw := keyword_score question GEO_KEYWORDS
  let reg_kw := keyword_score question REGULATION_KEYWORDS
  let geo_match := best_overlap_score tokens (geo_entries.map (·.tokens))
  let reg_match := best_overlap_score tokens (reg_blocks.map (·.tokens))
  let article_ref := match_article_reference question
  (geo_kw * 2 + geo_match,
   reg_kw * 2 + reg_match + (if optStrTruthy article_ref then 4 else 0),
   article_ref)

/-- `decide_source(geo_total, reg_total)`. -/
def decide_source (geo_total reg_total : ℤ) : Str :=
  if geo_total = 0 ∧ reg_total = 0 then "unknown".toList
  else if |geo_total - reg_total| ≤ 1 then "unknown".toList
  else if geo_total > reg_total then "geo".toList
  else "regulation".toList

/-- Round-half-to-even to an integer (the rounding of Python's `round`),
computed on the numerator and denominator: `f = ⌊q⌋` and the fractional
part `q - f` is compared with `1/2` by comparing `2*(q.num - f*q.den)`
with `q.den`. -/
def roundHalfEven (q : ℚ) : ℤ :=
  let f := q.num / (q.den : ℤ)
  let r2 := 2 * (q.num - f * (q.den : ℤ))
  if r2 < (q.den : ℤ) then f
  else if (q.den : ℤ) < r2 then f + 1
  else if f % 2 = 0 then f else f + 1

/-- Python `round(x, 2)` modelled over `ℚ`. -/
def pyRound2 (q : ℚ) : ℚ := (roundHalfEven (q * 100) : ℚ) / 100

/-- `compute_route_confidence(geo_total, reg_total)`. -/
def compute_route_confidence (geo_total reg_total : ℤ) : ℚ :=
  let max_total := max geo_total reg_total
  if max_total = 0 then 0
  else pyRound2 (((max_total - min geo_total reg_total : ℤ) : ℚ) / (max_total : ℚ))

/-- `compute_match_confidence(best_score, token_count, article_match)`. -/
def compute_match_confidence (best_score token_count : ℤ)
    (article_match : Bool) : ℚ :=
  if article_match then 1
  else if token_count ≤ 0 then 0
  else min 1 (pyRound2 ((best_score : ℚ) / (token_count : ℚ)))

/-- `clamp_top_k(top_k)`. -/
def clamp_top_k (top_k : ℤ) : ℤ :=
  if top_k ≤ 0 then 3 else min top_k 5

/-- Decimal rendering of an integer (Python `str(int)`). -/
def intRepr (n : ℤ) : Str :=
  if n < 0 then '-' :: Nat.toDigits 10 n.natAbs else Nat.toDigits 10 n.toNat

/-- Python `f-string` rendering of a JSON value.  Integral numbers render
exactly; Python's float repr and container repr are approximated (no claim
depends on them). -/
def pyToStr : JsonVal → Str
  | JsonVal.null => "None".toList
  | JsonVal.bool true => "True".toList
  | JsonVal.bool false => "False".toList
  | JsonVal.num q =>
    if q.den = 1 then intRepr q.num
    else intRepr q.num ++ '/' :: Nat.toDigits 10 q.den
  | JsonVal.str s => s
  | JsonVal.arr _ => "[...]".toList
  | JsonVal.obj _ => Char.ofNat 0x7b :: "...".toList ++ [Char.ofNat 0x7d]

/-- Python `value in (None, "")` for a JSON value. -/
def isNoneOrEmptyStr : JsonVal → Bool
  | JsonVal.null => true
  | JsonVal.str s => s = []
  | _ => false

/-- Python `isinstance(value, (str, int, float))` — `bool` is a subclass
of `int`, so booleans qualify. -/
def isJsonScalar : JsonVal → Bool
  | JsonVal.str _ => true
  | JsonVal.num _ => true
  | JsonVal.bool _ => true
  | _ => false

/-- Python `dict.get` on the parsed object. -/
def lookupField (fields : List (Str × JsonVal)) (k : Str) : Option JsonVal :=
  (fields.find? (fun p => p.1 = k)).map (·.2)

/-- The ordered preferred-key list `PREFERRED_API_KEYS`. -/
def PREFERRED_API_KEYS : List Str :=
  ["naam".toList, "name".toList, "id".toList, "gid".toList,
   "height".toList, "score".toList, "projectnummer".toList,
   "fasedatum".toList, "svnaam".toList, "legende".toList,
   "wegcategorie".toList, "wegsegmentstatus".toList]

/-- Lexicographic order on strings by code point (Python `<` on `str`). -/
def strLt : Str → Str → Bool
  | [], [] => false
  | [], _ :: _ => true
  | _ :: _, [] => false
  | a :: as, b :: bs => if a < b then true else if b < a then false else strLt as bs

/-- Insertion into an ascending list (for Python `sorted`). -/
def insertAsc (x : Str) : List Str → List Str
  | [] => [x]
  | y :: ys => if strLt y x then y :: insertAsc x ys else x :: y :: ys

/-- Python `sorted` on a list of strings. -/
def sortStrAsc : List Str → List Str
  | [] => []
  | x :: xs => insertAsc x (sortStrAsc xs)

/-- The first loop of `summarize_api_name`: walk `PREFERRED_API_KEYS`,
collecting present non-`None`, non-`""` values, stopping at three. -/
def pickPreferredAux (fields : List (Str × JsonVal)) :
    List Str → List (Str × JsonVal) → List (Str × JsonVal)
  | [], acc => acc.reverse
  | k :: ks, acc =>
    let acc' := match lookupField fields k with
      | some v => if isNoneOrEmptyStr v then acc else (k, v) :: acc
      | none => acc
    if 3 ≤ acc'.length then acc'.reverse else pickPreferredAux fields ks acc'

/-- The fallback loop of `summarize_api_name`: walk the keys in sorted
order, collecting scalar-valued non-`None`, non-`""` entries, stopping at
three. -/
def pickFallbackAux (fields : List (Str × JsonVal)) :
    List Str → List (Str × JsonVal) → List (Str × JsonVal)
  | [], acc => acc.reverse
  | k :: ks, acc =>
    let acc' := match lookupField fields k with
      | some v =>
        if isNoneOrEmptyStr v then acc
        else if isJsonScalar v then (k, v) :: acc else acc
      | none => acc
    if 3 ≤ acc'.length then acc'.reverse else pickFallbackAux fields ks acc'

/-- `summarize_api_name(api_name_dict)`. -/
def summarize_api_name (api_name_dict : Option (List (Str × JsonVal))) :
    Option Str :=
  match api_name_dict with
  | none => none
  | some fields =>
    if fields.isEmpty then none
    else
      let items := pickPreferredAux fields PREFERRED_API_KEYS []
      let items :=
        if items.isEmpty then
          pickFallbackAux fields (sortStrAsc (fields.map (·.1))) []
        else items
      if items.isEmpty then none
      else
        List.intercalate ", ".toList
          (items.map (fun p => p.1 ++ '=' :: pyToStr p.2))

/-- `format_geo_answer(entry)`. -/
def format_geo_answer (entry : GeoEntry) : Str :=
  let name := if entry.name = [] then "(unknown name)".toList else entry.name
  let details : List Str :=
    (if optStrTruthy entry.status then
      ["status=".toList ++ entry.status.getD []] else []) ++
    (if optStrTruthy entry.distance_m then
      ["distance_m=".toList ++ entry.distance_m.getD []] else []) ++
    (if optStrTruthy entry.overlap_fraction then
      ["overlap_fraction=".toList ++ entry.overlap_fraction.getD []] else [])
  let api_summary := summarize_api_name entry.api_name_dict
  let details := details ++
    (if optStrTruthy api_summary then
      ["details=".toList ++ api_summary.getD []] else [])
  let detail_text := List.intercalate "; ".toList details
  if detail_text ≠ [] then
    "Match in geo data: ".toList ++ name ++ ". ".toList ++ detail_text ++ ".".toList
  else
    "Match in geo data: ".toList ++ name ++ ".".toList

/-- The structured record returned by `format_geo_match`. -/
structure GeoMatch where
  name : Str
  score : ℤ
  status : Option Str
  distance_m : Option Str
  overlap_fraction : Option Str
  details : Option Str
deriving DecidableEq

/-- `format_geo_match(entry, score)`. -/
def format_geo_match (entry : GeoEntry) (score : ℤ) : GeoMatch :=
  { name := if entry.name = [] then "(unknown name)".toList else entry.name
    score := score
    status := entry.status
    distance_m := entry.distance_m
    overlap_fraction := entry.overlap_fraction
    details := summarize_api_name entry.api_name_dict }

/-- Python `s.rsplit(" ", 1)[0]`: everything before the last space, or the
whole string when it has no space. -/
def rsplitLast1 : Str → Str
  | [] => []
  | c :: cs =>
    if ' ' ∈ cs then c :: rsplitLast1 cs
    else if c = ' ' then []
    else c :: cs

/-- The snippet built by `format_regulation_answer` (collapse whitespace,
truncate to at most 300 characters). -/
def regAnswerSnippet (raw : Str) : Str :=
  let snippet := collapse_whitespace raw
  if 300 < snippet.length then rsplitLast1 (snippet.take 297) ++ "...".toList
  else snippet

/-- `format_regulation_answer(block)`. -/
def format_regulation_answer (block : RegulationBlock) : Str :=
  "From regulation data: ".toList ++ regAnswerSnippet block.raw

/-- The snippet built by `format_regulation_match` (collapse whitespace,
truncate to at most 160 characters). -/
def regMatchSnippet (raw : Str) : Str :=
  let snippet := collapse_whitespace raw
  if 160 < snippet.length then rsplitLast1 (snippet.take 157) ++ "...".toList
  else snippet

/-- The structured record returned by `format_regulation_match`. -/
structure RegMatch where
  title : Str
  article : Option Str
  score : ℤ
  snippet : Str
deriving DecidableEq

/-- `format_regulation_match(block, score)`. -/
def format_regulation_match (block : RegulationBlock) (score : ℤ) : RegMatch :=
  { title := block.title
    article := block.article_id
    score := score
    snippet := regMatchSnippet block.raw }

/-- A per-query top-match summary (the two dict shapes of the two sources). -/
inductive MatchSummary where
  | geo (m : GeoMatch)
  | reg (m : RegMatch)
deriving DecidableEq

/-- `SearchResult`. -/
structure SearchResult where
  answer : Str
  top_matches : List MatchSummary
  best_score : ℤ
  matched_id : Option Str := none
deriving DecidableEq

/-- Insertion step of the stable descending sort: `x` is placed before the
first element whose score is ≤ its own, so it stays after every
strictly-greater element and before every tied one that originally
followed it. -/
def insertDesc {α : Type} (x : ℤ × α) : List (ℤ × α) → List (ℤ × α)
  | [] => [x]
  | y :: ys => if y.1 ≤ x.1 then x :: y :: ys else y :: insertDesc x ys

/-- `matches.sort(key=lambda item: item[0], reverse=True)`: Python's sort
is stable, and any two stable sorts under the same key agree extensionally,
so the stable insertion sort is a faithful model. -/
def sortDesc {α : Type} : List (ℤ × α) → List (ℤ × α)
  | [] => []
  | x :: xs => insertDesc x (sortDesc xs)

/-- The candidate list built by the loop in `search_geo`: every entry with
a non-zero combined score, paired with its score, in dataset order. -/
def geo_candidates (entries : List GeoEntry) (question : Str) :
    List (ℤ × GeoEntry) :=
  let tokens := (extract_keywords question).toFinset
  let question_norm := normalize_phrase question
  entries.filterMap (fun entry =>
    let score := score_match tokens entry.tokens (phrase_boost entry.name question_norm)
    if score ≠ 0 then some (score, entry) else none)

/-- `search_geo(question, top_k)`, with the cached index passed explicitly. -/
def search_geo (entries : List GeoEntry) (question : Str) (top_k : ℤ) :
    SearchResult :=
  let sorted_matches := sortDesc (geo_candidates entries question)
  let k := (clamp_top_k top_k).toNat
  match sorted_matches with
  | [] =>
    { answer := "No relevant geo match found in the mock data.".toList
      top_matches := []
      best_score := 0 }
  | (best_score, best_entry) :: _ =>
    { answer := format_geo_answer best_entry
      top_matches := (sorted_matches.take k).map
        (fun p => MatchSummary.geo (format_geo_match p.2 p.1))
      best_score := best_score }

/-- The candidate list built by the loop in `search_regulation` (with the
resolved article reference): every block with a non-zero score, including
the +10 exact-article bonus, in corpus order. -/
def reg_candidates (blocks : List RegulationBlock) (question : Str)
    (aref : Option Str) : List (ℤ × RegulationBlock) :=
  let tokens := (extract_keywords question).toFinset
  let question_norm := normalize_phrase question
  blocks.filterMap (fun block =>
    let base := score_match tokens block.tokens (phrase_boost block.title question_norm)
    let score :=
      if optStrTruthy aref ∧ block.article_id = aref then base + 10 else base
    if score ≠ 0 then some (score, block) else none)

/-- `search_regulation(question, top_k, article_ref)`, with the cached
index passed explicitly. -/
def search_regulation (blocks : List RegulationBlock) (question : Str)
    (top_k : ℤ) (article_ref : Option Str) : SearchResult :=
  let aref :=
    if optStrTruthy article_ref then article_ref
    else match_article_reference question
  let sorted_matches := sortDesc (reg_candidates blocks question aref)
  let k := (clamp_top_k top_k).toNat
  match sorted_matches with
  | [] =>
    { answer := "No relevant regulation match found in the mock data.".toList
      top_matches := []
      best_score := 0 }
  | (best_score, best_block) :: _ =>
    { answer := format_regulation_answer best_block
      top_matches := (sorted_matches.take k).map
        (fun p => MatchSummary.reg (format_regulation_match p.2 p.1))
      best_score := best_score
      matched_id :=
        if optStrTruthy aref ∧ best_block.article_id = aref then aref
        else none }

/-- The `meta` record of an `AnswerResult` (`processing_ms`, a wall-clock
measurement, is not modelled). -/
structure Meta where
  confidence : ℚ
  route_confidence : ℚ
  match_confidence : ℚ
  route_scores : ℤ × ℤ
  top_matches : List MatchSummary
  data_file : Option Str
  matched_article : Option Str
deriving DecidableEq

/-- `AnswerResult`. -/
structure AnswerResult where
  answer : Str
  source : Str
  meta : Meta
deriving DecidableEq

/-- `answer_question(question, top_k)`, with the cached index passed
explicitly. -/
def answer_question (geo_entries : List GeoEntry)
    (reg_blocks : List RegulationBlock) (question : Str) (top_k : ℤ) :
    AnswerResult :=
  let tokens := (extract_keywords question).toFinset
  let rs := compute_route_scores question tokens geo_entries reg_blocks
  let geo_total := rs.1
  let reg_total := rs.2.1
  let article_ref := rs.2.2
  let source := decide_source geo_total reg_total
  let sr_df : SearchResult × Option Str :=
    if source = "geo".toList then
      (search_geo geo_entries question top_k, some "mock_geo_data.csv".toList)
    else if source = "regulation".toList then
      (search_regulation reg_blocks question top_k article_ref,
       some "mock_regulation_data.txt".toList)
    else
      ({ answer := "I could not determine which data source applies to that question.".toList
         top_matches := []
         best_score := 0 }, none)
  let search_result := sr_df.1
  let route_confidence := compute_route_confidence geo_total reg_total
  let match_confidence := compute_match_confidence search_result.best_score
    (tokens.card : ℤ) search_result.matched_id.isSome
  let confidence :=
    if source = "unknown".toList then 0
    else pyRound2 ((route_confidence + match_confidence) / 2)
  { answer := search_result.answer
    source := source
    meta :=
      { confidence := confidence
        route_confidence := route_confidence
        match_confidence := match_confidence
        route_scores := (geo_total, reg_total)
        top_matches := search_result.top_matches
        data_file := sr_df.2
        matched_article :=
          if optStrTruthy search_result.matched_id then search_result.matched_id
          else none } }

/-- `route_question(question)`, with the cached index passed explicitly. -/
def route_question (geo_entries : List GeoEntry)
    (reg_blocks : List RegulationBlock) (question : Str) : Str :=
  let rs := compute_route_scores question (extract_keywords question).toFinset
    geo_entries reg_blocks
  decide_source rs.1 rs.2.1

/-- `safe_value(value)`. -/
def safe_value (value : Option Str) : Option Str :=
  match value with
  | none => none
  | some v =>
    let cleaned := pyStrip v
    if cleaned = [] then none
    else if cleaned.map pyUpper = "NULL".toList then none
    else some cleaned

/-- `parse_api_name(raw_value)`, with `json.loads` abstracted as `loads`
(a decode failure is `Except.error`, mirroring the caught
`json.JSONDecodeError`). -/
def parse_api_name (loads : Str → Except Unit JsonVal)
    (raw_value : Option Str) : Option (List (Str × JsonVal)) :=
  match raw_value with
  | none => none
  | some s =>
    if s = [] then none
    else
      match loads s with
      | Except.error _ => none
      | Except.ok (JsonVal.obj fields) => some fields
      | Except.ok _ => none

/-- One raw geo row, a mapping from column name to optional string
(`row.get(...)` returns `None` for a missing column). -/
structure GeoRow where
  name : Option Str
  status : Option Str
  distance_m : Option Str
  overlap_fraction : Option Str
  api_name : Option Str

/-- The index-building loop of `get_geo_entries`, over the loaded rows. -/
def build_geo_entries (loads : Str → Except Unit JsonVal)
    (rows : List GeoRow) : List GeoEntry :=
  rows.map (fun row =>
    let name := (safe_value row.name).getD []
    let status := safe_value row.status
    let distance := safe_value row.distance_m
    let overlap := safe_value row.overlap_fraction
    let api_raw := safe_value row.api_name
    let api_dict := parse_api_name loads api_raw
    let vals := [some name, status, distance, overlap, api_raw].filterMap
      (fun o => match o with
        | some v => if v = [] then none else some v
        | none => none)
    let combined := List.intercalate [' '] vals
    { name := name
      status := status
      distance_m := distance
      overlap_fraction := overlap
      api_name_raw := api_raw
      api_name_dict := api_dict
      tokens := (extract_keywords combined).toFinset })

/-- The index-building loop of `get_regulation_blocks`, over the loaded
corpus text. -/
def build_regulation_blocks (text : Str) : List RegulationBlock :=
  (split_blocks text).map (fun raw_block =>
    let lines := pySplitlines raw_block
    let title := match lines with
      | [] => raw_block.take 60
      | l :: _ => pyStrip l
    { raw := raw_block
      title := title
      article_id := extract_article_id raw_block
      tokens := (extract_keywords raw_block).toFinset })

/-! ### Shared lemmas -/

theorem floor_div_eq (q : ℚ) : q.num / (q.den : ℤ) = ⌊q⌋ := (Rat.floor_def).symm

theorem sub_floor_mul_den (q : ℚ) :
    (q - (⌊q⌋ : ℚ)) * (q.den : ℚ) = (q.num : ℚ) - (⌊q⌋ : ℚ) * (q.den : ℚ) := by
  have hnum : q * (q.den : ℚ) = (q.num : ℚ) := Rat.mul_den_eq_num q
  linear_combination hnum

theorem roundHalfEven_mem (q : ℚ) :
    roundHalfEven q = ⌊q⌋ ∨ (roundHalfEven q = ⌊q⌋ + 1 ∧ (1 : ℚ)/2 ≤ q - ⌊q⌋) := by
  unfold roundHalfEven
  rw [floor_div_eq]
  dsimp only
  have hden : (0 : ℚ) < (q.den : ℚ) := by exact_mod_cast q.pos
  have key := sub_floor_mul_den q
  split_ifs with h1 h2 h3
  · exact Or.inl rfl
  · refine Or.inr ⟨rfl, ?_⟩
    have h2' : ((q.den : ℤ) : ℚ) < ((2 * (q.num - ⌊q⌋ * q.den) : ℤ) : ℚ) := by
      exact_mod_cast h2
    push_cast at h2'
    rw [← key] at h2'
    have hh : (1 : ℚ)/2 * (q.den : ℚ) < (q - (⌊q⌋ : ℚ)) * (q.den : ℚ) := by linarith
    exact le_of_lt ((mul_lt_mul_right hden).mp hh)
  · exact Or.inl rfl
  · refine Or.inr ⟨rfl, ?_⟩
    have h1' : ((q.den : ℤ) : ℚ) ≤ ((2 * (q.num - ⌊q⌋ * q.den) : ℤ) : ℚ) := by
      exact_mod_cast not_lt.mp h1
    push_cast at h1'
    rw [← key] at h1'
    have hh : (1 : ℚ)/2 * (q.den : ℚ) ≤ (q - (⌊q⌋ : ℚ)) * (q.den : ℚ) := by linarith
    exact (mul_le_mul_right hden).mp hh

theorem roundHalfEven_nonneg (q : ℚ) (h : 0 ≤ q) : 0 ≤ roundHalfEven q := by
  have hf : 0 ≤ ⌊q⌋ := Int.floor_nonneg.mpr h
  rcases roundHalfEven_mem q with h1 | ⟨h1, _⟩ <;> omega

theorem roundHalfEven_le (q : ℚ) (n : ℤ) (h : q ≤ (n : ℚ)) : roundHalfEven q ≤ n := by
  have hf : ⌊q⌋ ≤ n := by
    have := Int.floor_le_floor h
    simpa using this
  rcases roundHalfEven_mem q with h1 | ⟨h1, h2⟩
  · omega
  · rw [h1]
    have hq : (⌊q⌋ : ℚ) + 1/2 ≤ (n : ℚ) := by linarith
    have : ⌊q⌋ < n := by
      by_contra hc
      push_neg at hc
      have : (n : ℚ) ≤ (⌊q⌋ : ℚ) := by exact_mod_cast hc
      linarith
    omega

theorem pyRound2_nonneg (q : ℚ) (h : 0 ≤ q) : 0 ≤ pyRound2 q := by
  unfold pyRound2
  have : 0 ≤ roundHalfEven (q * 100) := roundHalfEven_nonneg _ (by linarith)
  positivity

theorem pyRound2_le_one (q : ℚ) (h : q ≤ 1) : pyRound2 q ≤ 1 := by
  unfold pyRound2
  have : roundHalfEven (q * 100) ≤ (100 : ℤ) := by
    apply roundHalfEven_le
    push_cast
    linarith
  rw [div_le_one (by norm_num)]
  exact_mod_cast this

/-! ### C1: `decide_source` -/

/-- C1: for all integer totals `geoTotal ≥ 0` and `regTotal ≥ 0`,
`decide_source` returns `"unknown"` when both totals are 0 or when
`|geoTotal − regTotal| ≤ 1`, and otherwise returns `"geo"` exactly when
`geoTotal` is strictly greater and `"regulation"` exactly when `regTotal`
is strictly greater; in particular a near-tie is always `"unknown"`. -/
theorem decide_source_spec (g r : ℤ) (hg : 0 ≤ g) (hr : 0 ≤ r) :
    decide_source g r =
      (if (g = 0 ∧ r = 0) ∨ |g - r| ≤ 1 then "unknown".toList
       else if r < g then "geo".toList else "regulation".toList) ∧
    (|g - r| ≤ 1 → decide_source g r = "unknown".toList) := by
  constructor
  · unfold decide_source
    by_cases h1 : g = 0 ∧ r = 0
    · obtain ⟨hg0, hr0⟩ := h1
      subst hg0
      subst hr0
      decide
    · by_cases h2 : |g - r| ≤ 1
      · rw [if_neg h1, if_pos h2, if_pos (Or.inr h2)]
      · have hne : ¬ ((g = 0 ∧ r = 0) ∨ |g - r| ≤ 1) := by tauto
        rw [if_neg h1, if_neg h2, if_neg hne]
  · intro h
    unfold decide_source
    by_cases h1 : g = 0 ∧ r = 0
    · rw [if_pos h1]
    · rw [if_neg h1, if_pos h]

/-- Witness for C1 at concrete inputs. -/
theorem decide_source_spec_witness :
    decide_source 3 4 = "unknown".toList ∧ decide_source 5 2 = "geo".toList :=
  ⟨(decide_source_spec 3 4 (by decide) (by decide)).2 (by decide),
   by
    have h := (decide_source_spec 5 2 (by decide) (by decide)).1
    rw [h]
    decide⟩

/-! ### C6: confidence ranges -/

/-- C6: for nonnegative integer inputs, `compute_route_confidence` is `0`
when both totals are `0`, otherwise `round((max − min)/max, 2)`, and always
lies in `[0, 1]`; `compute_match_confidence` is `1` on an article match,
`0` when the token count is zero, otherwise `min(1, round(best/count, 2))`,
and always lies in `[0, 1]`. -/
theorem confidence_range_spec (g r best tc : ℤ) (am : Bool)
    (hg : 0 ≤ g) (hr : 0 ≤ r) (hb : 0 ≤ best) (htc : 0 ≤ tc) :
    (g = 0 ∧ r = 0 → compute_route_confidence g r = 0) ∧
    (¬ (g = 0 ∧ r = 0) → compute_route_confidence g r =
      pyRound2 (((max g r - min g r : ℤ) : ℚ) / ((max g r : ℤ) : ℚ))) ∧
    0 ≤ compute_route_confidence g r ∧ compute_route_confidence g r ≤ 1 ∧
    (am = true → compute_match_confidence best tc am = 1) ∧
    (am = false → tc = 0 → compute_match_confidence best tc am = 0) ∧
    (am = false → 0 < tc → compute_match_confidence best tc am =
      min 1 (pyRound2 ((best : ℚ) / (tc : ℚ)))) ∧
    0 ≤ compute_match_confidence best tc am ∧
    compute_match_confidence best tc am ≤ 1 := by
  have hroute : (g = 0 ∧ r = 0 → compute_route_confidence g r = 0) ∧
      (¬ (g = 0 ∧ r = 0) → compute_route_confidence g r =
        pyRound2 (((max g r - min g r : ℤ) : ℚ) / ((max g r : ℤ) : ℚ))) ∧
      0 ≤ compute_route_confidence g r ∧ compute_route_confidence g r ≤ 1 := by
    unfold compute_route_confidence
    dsimp only
    by_cases h : max g r = 0
    · rw [if_pos h]
      have hz : g = 0 ∧ r = 0 :=
        ⟨le_antisymm (h ▸ le_max_left g r) hg, le_antisymm (h ▸ le_max_right g r) hr⟩
      exact ⟨fun _ => rfl, fun hc => absurd hz hc, le_refl _, by norm_num⟩
    · rw [if_neg h]
      have h0 : (0 : ℤ) ≤ max g r := le_trans hg (le_max_left g r)
      have hmax : 0 < max g r := lt_of_le_of_ne h0 (Ne.symm h)
      have hmaxq : (0 : ℚ) < ((max g r : ℤ) : ℚ) := by exact_mod_cast hmax
      have hmin0 : (0 : ℤ) ≤ min g r := le_min hg hr
      have harg0 : (0 : ℚ) ≤ ((max g r - min g r : ℤ) : ℚ) / ((max g r : ℤ) : ℚ) := by
        apply div_nonneg _ (le_of_lt hmaxq)
        have hs : (0 : ℤ) ≤ max g r - min g r := sub_nonneg.mpr (min_le_max)
        exact_mod_cast hs
      have harg1 : ((max g r - min g r : ℤ) : ℚ) / ((max g r : ℤ) : ℚ) ≤ 1 := by
        rw [div_le_one hmaxq]
        have hs : (max g r - min g r : ℤ) ≤ max g r := sub_le_self _ hmin0
        exact_mod_cast hs
      refine ⟨fun hc => ?_, fun _ => rfl, pyRound2_nonneg _ harg0, pyRound2_le_one _ harg1⟩
      · exact absurd (by rw [hc.1, hc.2]; simp) h
  have hmatch : (am = true → compute_match_confidence best tc am = 1) ∧
      (am = false → tc = 0 → compute_match_confidence best tc am = 0) ∧
      (am = false → 0 < tc → compute_match_confidence best tc am =
        min 1 (pyRound2 ((best : ℚ) / (tc : ℚ)))) ∧
      0 ≤ compute_match_confidence best tc am ∧
      compute_match_confidence best tc am ≤ 1 := by
    cases am with
    | true =>
      have he : compute_match_confidence best tc true = 1 := rfl
      rw [he]
      exact ⟨fun _ => rfl, fun ha => absurd ha (by decide),
        fun ha => absurd ha (by decide), by norm_num, le_refl _⟩
    | false =>
      have he : compute_match_confidence best tc false =
          (if tc ≤ 0 then 0 else min 1 (pyRound2 ((best : ℚ) / (tc : ℚ)))) := rfl
      rw [he]
      by_cases htc0 : tc ≤ 0
      · rw [if_pos htc0]
        exact ⟨fun ha => absurd ha (by decide), fun _ _ => rfl,
          fun _ htc' => absurd htc' (by omega), le_refl _, by norm_num⟩
      · rw [if_neg htc0]
        have htcq : (0 : ℚ) < (tc : ℚ) := by
          have h' : 0 < tc := by omega
          exact_mod_cast h'
        have harg0 : (0 : ℚ) ≤ (best : ℚ) / (tc : ℚ) := by
          apply div_nonneg _ (le_of_lt htcq)
          exact_mod_cast hb
        exact ⟨fun ha => absurd ha (by decide), fun _ htc' => absurd htc' (by omega),
          fun _ _ => rfl, le_min (by norm_num) (pyRound2_nonneg _ harg0),
          min_le_left _ _⟩
  exact ⟨hroute.1, hroute.2.1, hroute.2.2.1, hroute.2.2.2,
    hmatch.1, hmatch.2.1, hmatch.2.2.1, hmatch.2.2.2.1, hmatch.2.2.2.2⟩

/-- Witness for C6 at concrete inputs. -/
theorem confidence_range_spec_witness :
    compute_route_confidence 0 0 = 0 ∧
    compute_match_confidence 7 0 false = 0 ∧
    compute_match_confidence 7 2 true = 1 :=
  ⟨(confidence_range_spec 0 0 7 0 false (by decide) (by decide) (by decide)
      (by decide)).1 ⟨rfl, rfl⟩,
   (confidence_range_spec 0 0 7 0 false (by decide) (by decide) (by decide)
      (by decide)).2.2.2.2.2.1 rfl rfl,
   (confidence_range_spec 0 0 7 2 true (by decide) (by decide) (by decide)
      (by decide)).2.2.2.2.1 rfl⟩

/-! ### C3: final confidence in `answer_question` -/

/-- C3: `answer_question` sets the final confidence to
`round((routeConfidence + matchConfidence)/2, 2)` whenever the decided
source is `"geo"` or `"regulation"`, and to exactly `0.0` whenever the
decided source is `"unknown"`. -/
theorem answer_question_confidence_spec (geo_entries : List GeoEntry)
    (reg_blocks : List RegulationBlock) (question : Str) (top_k : ℤ) :
    ((answer_question geo_entries reg_blocks question top_k).source = "geo".toList ∨
      (answer_question geo_entries reg_blocks question top_k).source = "regulation".toList →
      (answer_question geo_entries reg_blocks question top_k).meta.confidence =
        pyRound2 (((answer_question geo_entries reg_blocks question top_k).meta.route_confidence +
          (answer_question geo_entries reg_blocks question top_k).meta.match_confidence) / 2)) ∧
    ((answer_question geo_entries reg_blocks question top_k).source = "unknown".toList →
      (answer_question geo_entries reg_blocks question top_k).meta.confidence = 0) := by
  unfold answer_question
  dsimp only
  constructor
  · intro h
    have hne : decide_source
        (compute_route_scores question (extract_keywords question).toFinset
          geo_entries reg_blocks).1
        (compute_route_scores question (extract_keywords question).toFinset
          geo_entries reg_blocks).2.1 ≠ "unknown".toList := by
      rcases h with h | h <;> (rw [h]; decide)
    rw [if_neg hne]
  · intro h
    rw [if_pos h]

/-- Witness for C3: a question routed to neither source gets confidence 0. -/
theorem answer_question_confidence_spec_witness :
    (answer_question [] [] "What is the capital of France?".toList 3).meta.confidence = 0 :=
  (answer_question_confidence_spec [] [] ("What is the capital of France?".toList) 3).2
    (by decide)

/-! ### C2: route score decomposition -/

theorem keyword_score_eq_countP (question : Str) (keywords : List Str) :
    keyword_score question keywords =
      ((keywords.countP (fun kw => isSubstr kw (question.map pyLower))) : ℤ) := by
  unfold keyword_score
  rw [List.countP_eq_length_filter]

theorem foldr_max_nonneg (l : List ℤ) : 0 ≤ l.foldr max 0 := by
  induction l with
  | nil => exact le_refl 0
  | cons x xs ih => exact le_trans ih (le_max_right _ _)

theorem foldl_overlap_eq (tokens : Finset Str) :
    ∀ (sets : List (Finset Str)) (a : ℤ), 0 ≤ a →
      sets.foldl (fun best t =>
          if best < ((tokens ∩ t).card : ℤ) then ((tokens ∩ t).card : ℤ) else best) a =
        max a ((sets.map (fun t => ((tokens ∩ t).card : ℤ))).foldr max 0) := by
  intro sets
  induction sets with
  | nil =>
    intro a ha
    simp only [List.foldl_nil, List.map_nil, List.foldr_nil]
    exact (max_eq_left ha).symm
  | cons t ts ih =>
    intro a ha
    simp only [List.foldl_cons, List.map_cons, List.foldr_cons]
    have hstep : (if a < ((tokens ∩ t).card : ℤ) then ((tokens ∩ t).card : ℤ) else a) =
        max a ((tokens ∩ t).card : ℤ) := by
      rw [max_def]
      split_ifs <;> omega
    rw [hstep, ih _ (le_trans ha (le_max_left _ _))]
    exact max_assoc _ _ _

theorem best_overlap_score_eq (tokens : Finset Str) (sets : List (Finset Str)) :
    best_overlap_score tokens sets =
      (sets.map (fun t => ((tokens ∩ t).card : ℤ))).foldr max 0 := by
  unfold best_overlap_score
  by_cases h : tokens = ∅
  · rw [if_pos h]
    subst h
    have hz : ∀ ss : List (Finset Str), ((ss.map (fun _ => (0 : ℤ))).foldr max 0) = 0 := by
      intro ss
      induction ss with
      | nil => rfl
      | cons t ts ih => simp only [List.map_cons, List.foldr_cons, ih, max_self]
    have hm : (sets.map (fun t => (((∅ : Finset Str) ∩ t).card : ℤ))) =
        sets.map (fun _ => (0 : ℤ)) := by
      simp [Finset.empty_inter]
    rw [hm, hz sets]
  · rw [if_neg h]
    show sets.foldl (fun best t =>
        if best < ((tokens ∩ t).card : ℤ) then ((tokens ∩ t).card : ℤ) else best) 0 = _
    rw [foldl_overlap_eq tokens sets 0 (le_refl 0)]
    exact max_eq_right (foldr_max_nonneg _)

theorem match_article_reference_truthy (question : Str) :
    optStrTruthy (match_article_reference question) =
      (match_article_reference question).isSome := by
  unfold match_article_reference
  cases searchArt question with
  | none => rfl
  | some s => simp [optStrTruthy]

/-- C2: `compute_route_scores` returns
`geoTotal = 2 × (number of geo keywords occurring as substrings of the
lowercased question) + (maximum intersection size between the question
token set and any single geo entry's token set)`, and
`regTotal = 2 × (the same count over the regulation keywords) + (the
maximum intersection with any regulation block's token set) + 4` exactly
when an article reference was extracted; with no tokens the overlap
contribution is 0. -/
theorem compute_route_scores_spec (question : Str) (tokens : Finset Str)
    (geo_entries : List GeoEntry) (reg_blocks : List RegulationBlock) :
    (compute_route_scores question tokens geo_entries reg_blocks).1 =
      2 * ((GEO_KEYWORDS.countP (fun kw => isSubstr kw (question.map pyLower))) : ℤ) +
        ((geo_entries.map (fun e => e.tokens)).map
          (fun t => ((tokens ∩ t).card : ℤ))).foldr max 0 ∧
    (compute_route_scores question tokens geo_entries reg_blocks).2.1 =
      2 * ((REGULATION_KEYWORDS.countP (fun kw => isSubstr kw (question.map pyLower))) : ℤ) +
        ((reg_blocks.map (fun b => b.tokens)).map
          (fun t => ((tokens ∩ t).card : ℤ))).foldr max 0 +
        (if (match_article_reference question).isSome then 4 else 0) := by
  unfold compute_route_scores
  dsimp only
  constructor
  · rw [keyword_score_eq_countP, best_overlap_score_eq]
    ring
  · rw [keyword_score_eq_countP, best_overlap_score_eq, match_article_reference_truthy]
    ring

/-! ### C10: `collapse_whitespace` is idempotent -/

theorem runsAux_words_sound (p : Char → Bool) :
    ∀ (s acc : Str), (∀ c ∈ acc, p c = true) →
      ∀ w ∈ runsAux p s acc, w ≠ [] ∧ ∀ c ∈ w, p c = true := by
  intro s
  induction s with
  | nil =>
    intro acc hacc w hw
    simp only [runsAux] at hw
    by_cases h : acc = []
    · rw [if_pos h] at hw
      cases hw
    · rw [if_neg h] at hw
      simp only [List.mem_singleton] at hw
      subst hw
      refine ⟨by simpa using h, fun c hc => hacc c (by simpa using hc)⟩
  | cons c cs ih =>
    intro acc hacc w hw
    simp only [runsAux] at hw
    by_cases hpc : p c = true
    · rw [if_pos hpc] at hw
      exact ih (c :: acc) (by
        intro c' hc'
        rcases List.mem_cons.mp hc' with h | h
        · subst h; exact hpc
        · exact hacc c' h) w hw
    · rw [if_neg hpc] at hw
      by_cases h : acc = []
      · rw [if_pos h] at hw
        exact ih [] (by intro c' hc'; cases hc') w hw
      · rw [if_neg h] at hw
        rcases List.mem_cons.mp hw with hw | hw
        · subst hw
          refine ⟨by simpa using h, fun c' hc' => hacc c' (by simpa using hc')⟩
        · exact ih [] (by intro c' hc'; cases hc') w hw

theorem runsAux_append_run (p : Char → Bool) (w : Str) (hw : ∀ c ∈ w, p c = true) :
    ∀ (s acc : Str), runsAux p (w ++ s) acc = runsAux p s (w.reverse ++ acc) := by
  induction w with
  | nil => intro s acc; simp
  | cons c cs ih =>
    intro s acc
    have hc : p c = true := hw c (by simp)
    rw [List.cons_append]
    simp only [runsAux, hc, if_true]
    rw [ih (fun c' hc' => hw c' (by simp [hc'])) s (c :: acc)]
    simp [List.append_assoc]

theorem runsAux_sep (p : Char → Bool) (c : Char) (hc : p c = false) (s acc : Str)
    (hacc : acc ≠ []) : runsAux p (c :: s) acc = acc.reverse :: runsAux p s [] := by
  simp only [runsAux, hc, Bool.false_eq_true, if_false]
  rw [if_neg hacc]

theorem pySplit_words (s : Str) :
    ∀ w ∈ pySplit s, w ≠ [] ∧ ∀ c ∈ w, pyIsSpace c = false := by
  intro w hw
  have h := runsAux_words_sound (fun c => !pyIsSpace c) s []
    (by intro c hc; cases hc) w hw
  exact ⟨h.1, fun c hc => by simpa using h.2 c hc⟩

theorem pySplit_intercalate (ws : List Str)
    (h : ∀ w ∈ ws, w ≠ [] ∧ ∀ c ∈ w, pyIsSpace c = false) :
    pySplit (List.intercalate [' '] ws) = ws := by
  induction ws with
  | nil => rfl
  | cons w ws' ih =>
    cases ws' with
    | nil =>
      obtain ⟨hne, hall⟩ := h w (by simp)
      have hstep : List.intercalate [' '] [w] = w := by
        simp [List.intercalate]
      rw [hstep]
      show runsAux (fun c => !pyIsSpace c) w [] = [w]
      rw [← List.append_nil w,
        runsAux_append_run _ w (by intro c hc; simp [hall c hc]) [] []]
      simp only [runsAux, List.append_nil]
      rw [if_neg (by simpa using hne)]
      simp
    | cons w2 ws'' =>
      obtain ⟨hne, hall⟩ := h w (by simp)
      have hstep : List.intercalate [' '] (w :: w2 :: ws'') =
          w ++ ' ' :: List.intercalate [' '] (w2 :: ws'') := by
        simp [List.intercalate, List.intersperse_cons_cons]
      rw [hstep]
      show runsAux (fun c => !pyIsSpace c)
        (w ++ ' ' :: List.intercalate [' '] (w2 :: ws'')) [] = _
      rw [runsAux_append_run _ w (by intro c hc; simp [hall c hc]) _ [],
        runsAux_sep _ ' ' (by decide) _ _ (by simpa using hne)]
      simp only [List.append_nil, List.reverse_reverse]
      have ih' := ih (fun w' hw' => h w' (by simp [hw']))
      show _ :: pySplit (List.intercalate [' '] (w2 :: ws'')) = _
      rw [ih']

/-- C10: `collapse_whitespace` is idempotent. -/
theorem collapse_whitespace_idempotent (s : Str) :
    collapse_whitespace (collapse_whitespace s) = collapse_whitespace s := by
  unfold collapse_whitespace
  rw [pySplit_intercalate (pySplit s) (pySplit_words s)]

/-! ### C8: malformed data degrades to absence, never raising -/

theorem dropWhile_eq_self_of_false (p : Char → Bool) (l : Str)
    (h : ∀ c ∈ l, p c = false) : l.dropWhile p = l := by
  cases l with
  | nil => rfl
  | cons c cs =>
    rw [List.dropWhile_cons, h c (by simp)]
    simp

theorem pyStrip_of_no_space (s : Str) (h : ∀ c ∈ s, pyIsSpace c = false) :
    pyStrip s = s := by
  unfold pyStrip
  rw [dropWhile_eq_self_of_false _ _ h,
    dropWhile_eq_self_of_false _ _ (fun c hc => h c (by simpa using hc)),
    List.reverse_reverse]

theorem dropWhile_eq_nil_of_true (p : Char → Bool) (l : Str)
    (h : ∀ c ∈ l, p c = true) : l.dropWhile p = [] := by
  induction l with
  | nil => rfl
  | cons c cs ih =>
    rw [List.dropWhile_cons, h c (by simp)]
    simp only [if_true]
    exact ih (fun c' hc' => h c' (by simp [hc']))

/-- C8: index building never raises on malformed data: `safe_value` maps
`None`, whitespace-only strings and the case-insensitive literal `"NULL"`
to absent, and `parse_api_name` returns absent (never raising) when the
field is absent, is not valid JSON (the decoder fails), or parses to
something other than a key→value mapping. -/
theorem safe_parse_never_raise :
    safe_value none = none ∧
    (∀ s : Str, (∀ c ∈ s, pyIsSpace c = true) → safe_value (some s) = none) ∧
    (∀ s : Str, s.map pyUpper = "NULL".toList → safe_value (some s) = none) ∧
    (∀ loads : Str → Except Unit JsonVal, parse_api_name loads none = none) ∧
    (∀ (loads : Str → Except Unit JsonVal) (s : Str) (e : Unit),
      loads s = Except.error e → parse_api_name loads (some s) = none) ∧
    (∀ (loads : Str → Except Unit JsonVal) (s : Str) (v : JsonVal),
      loads s = Except.ok v → (∀ fields, v ≠ JsonVal.obj fields) →
        parse_api_name loads (some s) = none) := by
  refine ⟨rfl, ?_, ?_, fun _ => rfl, ?_, ?_⟩
  · intro s hs
    unfold safe_value
    dsimp only
    have h1 : s.dropWhile pyIsSpace = [] := dropWhile_eq_nil_of_true _ _ hs
    have h2 : pyStrip s = [] := by
      unfold pyStrip
      rw [h1]
      rfl
    rw [h2]
    rfl
  · intro s hmap
    have hns : ∀ c ∈ s, pyIsSpace c = false := by
      intro c hc
      have hmem : pyUpper c ∈ "NULL".toList := by
        rw [← hmap]
        exact List.mem_map_of_mem _ hc
      cases hsp : pyIsSpace c with
      | false => rfl
      | true =>
        exfalso
        have hcases : c = ' ' ∨ c = '\t' ∨ c = '\n' ∨ c = '\x0d' ∨
            c = '\x0b' ∨ c = '\x0c' := by
          simpa [pyIsSpace, or_assoc] using hsp
        rcases hcases with h | h | h | h | h | h <;> subst h <;>
          revert hmem <;> decide
    have hne : s ≠ [] := by
      intro h
      subst h
      exact absurd hmap (by decide)
    unfold safe_value
    dsimp only
    rw [pyStrip_of_no_space s hns, if_neg hne, if_pos hmap]
  · intro loads s e he
    unfold parse_api_name
    dsimp only
    by_cases h : s = []
    · rw [if_pos h]
    · rw [if_neg h, he]
  · intro loads s v hv hnot
    unfold parse_api_name
    dsimp only
    by_cases h : s = []
    · rw [if_pos h]
    · rw [if_neg h, hv]
      cases v with
      | obj fields => exact absurd rfl (hnot fields)
      | null => rfl
      | bool b => rfl
      | num q => rfl
      | str s' => rfl
      | arr xs => rfl

/-- Witness for C8 at concrete inputs. -/
theorem safe_parse_never_raise_witness :
    safe_value (some " \t ".toList) = none ∧
    safe_value (some "null".toList) = none ∧
    parse_api_name (fun _ => Except.error ()) (some "x".toList) = none ∧
    parse_api_name (fun _ => Except.ok (JsonVal.num 3)) (some "3".toList) = none :=
  ⟨safe_parse_never_raise.2.1 _ (by decide),
   safe_parse_never_raise.2.2.1 _ (by decide),
   safe_parse_never_raise.2.2.2.2.1 _ _ () rfl,
   safe_parse_never_raise.2.2.2.2.2 _ _ (JsonVal.num 3) rfl
     (by intro fields h; cases h)⟩

/-! ### C4: regulation block titles -/

theorem splitlinesAux_ne_nil :
    ∀ (fuel : Nat) (s acc : Str), acc ≠ [] → splitlinesAux fuel s acc ≠ [] := by
  intro fuel
  induction fuel with
  | zero =>
    intro s acc hacc
    cases s with
    | nil => simp [splitlinesAux, hacc]
    | cons c cs => simp [splitlinesAux]
  | succ n ih =>
    intro s acc hacc
    cases s with
    | nil => simp [splitlinesAux, hacc]
    | cons c cs =>
      unfold splitlinesAux
      split
      · split
        · simp
        · simp
      · split
        · simp
        · exact ih _ _ (by simp)

theorem pySplitlines_ne_nil (s : Str) (hs : s ≠ []) : pySplitlines s ≠ [] := by
  unfold pySplitlines
  cases s with
  | nil => exact absurd rfl hs
  | cons c cs =>
    show splitlinesAux (cs.length + 1) (c :: cs) [] ≠ []
    unfold splitlinesAux
    split
    · split
      · simp
      · simp
    · split
      · simp
      · exact splitlinesAux_ne_nil _ _ _ (by simp)

theorem split_blocks_mem (text : Str) (b : Str) (hb : b ∈ split_blocks text) :
    b ≠ [] ∧ ∃ piece, b = pyStrip piece := by
  unfold split_blocks at hb
  rw [List.mem_filterMap] at hb
  obtain ⟨piece, _, hpiece⟩ := hb
  dsimp only at hpiece
  by_cases h : pyStrip piece = []
  · rw [if_pos h] at hpiece
    cases hpiece
  · rw [if_neg h] at hpiece
    injection hpiece with hpiece
    exact ⟨hpiece ▸ h, piece, hpiece.symm⟩

/-- C4 counterexample: on a corpus that is one 70-character line, the
single block contains no line break, yet its title is the whole 70
characters, not the first 60 characters as the claim states. -/
theorem reg_block_title_counterexample :
    ∃ b ∈ build_regulation_blocks (List.replicate 70 'a'),
      ('\n' ∉ b.raw) ∧ b.title ≠ b.raw.take 60 := by decide

/-- C4 (amended): every regulation block produced by the index build has
non-empty raw text — so the first-60-characters fallback branch is
unreachable — and its title equals the block's first line stripped of
surrounding whitespace (for a block with no line break this is the entire
block, whatever its length). -/
theorem reg_block_title_spec (text : Str) (b : RegulationBlock)
    (hb : b ∈ build_regulation_blocks text) :
    b.raw ≠ [] ∧ pySplitlines b.raw ≠ [] ∧
      b.title = pyStrip ((pySplitlines b.raw).headD []) := by
  unfold build_regulation_blocks at hb
  rw [List.mem_map] at hb
  obtain ⟨raw, hraw, rfl⟩ := hb
  dsimp only
  have hne : raw ≠ [] := (split_blocks_mem text raw hraw).1
  have hlines : pySplitlines raw ≠ [] := pySplitlines_ne_nil raw hne
  refine ⟨hne, hlines, ?_⟩
  cases hl : pySplitlines raw with
  | nil => exact absurd hl hlines
  | cons l ls => rfl

/-- Witness for the amended C4 at a concrete corpus: the first block of
`"Tt \nbody\n\nB2x"` has title `"Tt"`, the stripped first line. -/
theorem reg_block_title_spec_witness :
    ((build_regulation_blocks "Tt \nbody\n\nB2x".toList).headD
      { raw := [], title := [], article_id := none, tokens := ∅ }).title =
      pyStrip ((pySplitlines ((build_regulation_blocks "Tt \nbody\n\nB2x".toList).headD
        { raw := [], title := [], article_id := none, tokens := ∅ }).raw).headD []) :=
  (reg_block_title_spec ("Tt \nbody\n\nB2x".toList) _ (by decide)).2.2

/-! ### C9: the article pattern has no word boundary before "art" -/

theorem searchArt_append_isSome (u v : Str) (h : (artMatchAt v).isSome) :
    (searchArt (u ++ v)).isSome := by
  induction u with
  | nil =>
    rw [List.nil_append]
    cases v with
    | nil => exact absurd h (by decide)
    | cons c cs =>
      unfold searchArt
      cases hm : artMatchAt (c :: cs) with
      | some g => simp
      | none => rw [hm] at h; exact absurd h (by decide)
  | cons a u' ih =>
    rw [List.cons_append]
    unfold searchArt
    cases hm : artMatchAt (a :: (u' ++ v)) with
    | some g => simp [hm]
    | none => simp [hm]; exact ih

/-- C9: the article pattern applies no word boundary before "art": any
question containing the letters "art" followed by an optional dot,
optional whitespace and a number matches, wherever that occurrence sits —
so "part 12" and "start 5" yield `"art. 12"` / `"art. 5"`, such questions
get the +4 regulation bonus through `compute_route_scores`, and a block
whose `article_id` is `"art. 12"` receives the +10 override (score 10 and
`matched_id` set) for the citation-free question "part 12". -/
theorem article_pattern_no_boundary (u v : Str) (h : ∃ g, artMatchAt v = some g) :
    (∃ s, match_article_reference (u ++ v) = some s) ∧
    match_article_reference "part 12".toList = some "art. 12".toList ∧
    match_article_reference "start 5".toList = some "art. 5".toList ∧
    (∀ (tokens : Finset Str) (entries : List GeoEntry) (blocks : List RegulationBlock),
      (compute_route_scores "part 12".toList tokens entries blocks).2.2 =
        some "art. 12".toList) ∧
    (search_regulation
        [{ raw := "Art. 12 bomen".toList, title := "Art. 12 bomen".toList,
           article_id := some "art. 12".toList, tokens := ∅ }]
        "part 12".toList 3 none).best_score = 10 ∧
    (search_regulation
        [{ raw := "Art. 12 bomen".toList, title := "Art. 12 bomen".toList,
           article_id := some "art. 12".toList, tokens := ∅ }]
        "part 12".toList 3 none).matched_id = some "art. 12".toList := by
  refine ⟨?_, by decide, by decide, fun tokens entries blocks => rfl, by decide, by decide⟩
  obtain ⟨g, hg⟩ := h
  have hsome : (searchArt (u ++ v)).isSome :=
    searchArt_append_isSome u v (by rw [hg]; rfl)
  unfold match_article_reference
  cases hs : searchArt (u ++ v) with
  | none => rw [hs] at hsome; exact absurd hsome (by decide)
  | some s => exact ⟨_, rfl⟩

/-- Witness for C9: "art" inside the word "part". -/
theorem article_pattern_no_boundary_witness :
    ∃ s, match_article_reference ("p".toList ++ "art 12".toList) = some s :=
  (article_pattern_no_boundary ("p".toList) ("art 12".toList)
    ⟨"12".toList, by decide⟩).1

/-! ### C5: snippet truncation -/

theorem rsplitLast1_no_space (s : Str) (h : ' ' ∉ s) : rsplitLast1 s = s := by
  induction s with
  | nil => rfl
  | cons c cs ih =>
    unfold rsplitLast1
    have h1 : ' ' ∉ cs := fun hc => h (by simp [hc])
    have h2 : ¬ c = ' ' := fun hc => h (by simp [hc])
    rw [if_neg h1, if_neg h2]

theorem rsplitLast1_boundary (s : Str) (h : ' ' ∈ s) :
    ∃ n, rsplitLast1 s = s.take n ∧ s[n]? = some ' ' := by
  induction s with
  | nil => cases h
  | cons c cs ih =>
    unfold rsplitLast1
    by_cases hcs : ' ' ∈ cs
    · rw [if_pos hcs]
      obtain ⟨n, hn1, hn2⟩ := ih hcs
      refine ⟨n + 1, ?_, ?_⟩
      · rw [List.take_succ_cons, hn1]
      · simpa using hn2
    · rw [if_neg hcs]
      have hc : c = ' ' := by
        rcases List.mem_cons.mp h with h' | h'
        · exact h'.symm
        · exact absurd h' hcs
      rw [if_pos hc]
      exact ⟨0, rfl, by rw [hc]; simp⟩

theorem rsplitLast1_length_le (s : Str) : (rsplitLast1 s).length ≤ s.length := by
  induction s with
  | nil => exact le_refl 0
  | cons c cs ih =>
    unfold rsplitLast1
    by_cases hcs : ' ' ∈ cs
    · rw [if_pos hcs]
      simpa using ih
    · rw [if_neg hcs]
      by_cases hc : c = ' '
      · rw [if_pos hc]
        simp
      · rw [if_neg hc]

theorem rsplit_take_spec (s : Str) (cut : ℕ) :
    (rsplitLast1 (s.take cut)).length ≤ cut ∧
    (' ' ∈ s.take cut →
      ∃ n, s[n]? = some ' ' ∧ rsplitLast1 (s.take cut) = s.take n) ∧
    (' ' ∉ s.take cut → rsplitLast1 (s.take cut) = s.take cut) := by
  refine ⟨?_, ?_, ?_⟩
  · exact le_trans (rsplitLast1_length_le _) (s.length_take_le cut)
  · intro hsp
    obtain ⟨n, hn1, hn2⟩ := rsplitLast1_boundary _ hsp
    have hlt : n < cut :=
      lt_of_lt_of_le (List.getElem?_eq_some.mp hn2).1 (s.length_take_le cut)
    refine ⟨n, ?_, ?_⟩
    · rw [← hn2, List.getElem?_take, if_pos hlt]
    · rw [hn1, List.take_take, min_eq_left (le_of_lt hlt)]
  · intro hsp
    exact rsplitLast1_no_space _ hsp

set_option maxRecDepth 8000 in
/-- C5 counterexample: a 301-character single word.  The collapsed text
exceeds the 300-character limit, yet the truncated snippet is the first
297 characters followed by the ellipsis, and the character right after the
cut is `'a'` — the middle of the same word, not a word boundary. -/
theorem reg_snippet_midword_counterexample :
    300 < (collapse_whitespace (List.replicate 301 'a')).length ∧
    regAnswerSnippet (List.replicate 301 'a') =
      (collapse_whitespace (List.replicate 301 'a')).take 297 ++ "...".toList ∧
    (collapse_whitespace (List.replicate 301 'a'))[297]? = some 'a' := by decide

/-- C5 (amended): the regulation answer snippet never exceeds 300
characters and the per-match snippet never exceeds 160; when the collapsed
text is longer than the limit AND a space occurs among its first 297
(resp. 157) characters, the truncated snippet ends at a word boundary
immediately before the trailing ellipsis; when no space occurs there, the
snippet is the first 297 (resp. 157) characters followed by the ellipsis,
which can cut mid-word. -/
theorem truncation_spec (raw : Str) :
    (regAnswerSnippet raw).length ≤ 300 ∧
    (regMatchSnippet raw).length ≤ 160 ∧
    (300 < (collapse_whitespace raw).length →
      (' ' ∈ (collapse_whitespace raw).take 297 →
        ∃ n, (collapse_whitespace raw)[n]? = some ' ' ∧
          regAnswerSnippet raw = (collapse_whitespace raw).take n ++ "...".toList) ∧
      (' ' ∉ (collapse_whitespace raw).take 297 →
        regAnswerSnippet raw = (collapse_whitespace raw).take 297 ++ "...".toList)) ∧
    (160 < (collapse_whitespace raw).length →
      (' ' ∈ (collapse_whitespace raw).take 157 →
        ∃ n, (collapse_whitespace raw)[n]? = some ' ' ∧
          regMatchSnippet raw = (collapse_whitespace raw).take n ++ "...".toList) ∧
      (' ' ∉ (collapse_whitespace raw).take 157 →
        regMatchSnippet raw = (collapse_whitespace raw).take 157 ++ "...".toList)) := by
  have hcore297 := rsplit_take_spec (collapse_whitespace raw) 297
  have hcore157 := rsplit_take_spec (collapse_whitespace raw) 157
  refine ⟨?_, ?_, ?_, ?_⟩
  · unfold regAnswerSnippet
    dsimp only
    by_cases h : 300 < (collapse_whitespace raw).length
    · rw [if_pos h, List.length_append]
      have h1 := hcore297.1
      have h3 : ("...".toList).length = 3 := rfl
      omega
    · rw [if_neg h]
      omega
  · unfold regMatchSnippet
    dsimp only
    by_cases h : 160 < (collapse_whitespace raw).length
    · rw [if_pos h, List.length_append]
      have h1 := hcore157.1
      have h3 : ("...".toList).length = 3 := rfl
      omega
    · rw [if_neg h]
      omega
  · intro h300
    constructor
    · intro hsp
      obtain ⟨n, hn1, hn2⟩ := hcore297.2.1 hsp
      refine ⟨n, hn1, ?_⟩
      unfold regAnswerSnippet
      dsimp only
      rw [if_pos h300, hn2]
    · intro hsp
      unfold regAnswerSnippet
      dsimp only
      rw [if_pos h300, hcore297.2.2 hsp]
  · intro h160
    constructor
    · intro hsp
      obtain ⟨n, hn1, hn2⟩ := hcore157.2.1 hsp
      refine ⟨n, hn1, ?_⟩
      unfold regMatchSnippet
      dsimp only
      rw [if_pos h160, hn2]
    · intro hsp
      unfold regMatchSnippet
      dsimp only
      rw [if_pos h160, hcore157.2.2 hsp]

set_option maxRecDepth 8000 in
/-- Witness for the amended C5 at the 301-character single word. -/
theorem truncation_spec_witness :
    (regAnswerSnippet (List.replicate 301 'a')).length ≤ 300 ∧
    regAnswerSnippet (List.replicate 301 'a') =
      (collapse_whitespace (List.replicate 301 'a')).take 297 ++ "...".toList :=
  ⟨(truncation_spec (List.replicate 301 'a')).1,
   ((truncation_spec (List.replicate 301 'a')).2.2.1 (by decide)).2 (by decide)⟩

/-! ### C7: search result shape, sorting and stability -/

section SortLemmas

variable {α : Type}

theorem insertDesc_perm (x : ℤ × α) (l : List (ℤ × α)) :
    (insertDesc x l).Perm (x :: l) := by
  induction l with
  | nil => exact List.Perm.refl _
  | cons y ys ih =>
    unfold insertDesc
    by_cases h : y.1 ≤ x.1
    · rw [if_pos h]
    · rw [if_neg h]
      exact List.Perm.trans (List.Perm.cons y ih) (List.Perm.swap x y ys)

theorem sortDesc_perm (l : List (ℤ × α)) : (sortDesc l).Perm l := by
  induction l with
  | nil => exact List.Perm.refl _
  | cons x xs ih =>
    unfold sortDesc
    exact List.Perm.trans (insertDesc_perm _ _) (List.Perm.cons x ih)

theorem insertDesc_sorted (x : ℤ × α) (l : List (ℤ × α))
    (hl : l.Pairwise (fun a b => b.1 ≤ a.1)) :
    (insertDesc x l).Pairwise (fun a b => b.1 ≤ a.1) := by
  induction l with
  | nil => simp [insertDesc]
  | cons y ys ih =>
    unfold insertDesc
    rw [List.pairwise_cons] at hl
    by_cases h : y.1 ≤ x.1
    · rw [if_pos h]
      refine List.Pairwise.cons ?_ (List.pairwise_cons.mpr hl)
      intro z hz
      rcases List.mem_cons.mp hz with hz | hz
      · subst hz; exact h
      · have := hl.1 z hz
        omega
    · rw [if_neg h]
      refine List.Pairwise.cons ?_ (ih hl.2)
      intro z hz
      have hz' : z ∈ x :: ys := (insertDesc_perm x ys).mem_iff.mp hz
      rcases List.mem_cons.mp hz' with hz' | hz'
      · subst hz'; omega
      · exact hl.1 z hz'

theorem sortDesc_sorted (l : List (ℤ × α)) :
    (sortDesc l).Pairwise (fun a b => b.1 ≤ a.1) := by
  induction l with
  | nil => exact List.Pairwise.nil
  | cons x xs ih => exact insertDesc_sorted x _ ih

theorem filter_insertDesc (x : ℤ × α) (l : List (ℤ × α)) (s : ℤ) :
    (insertDesc x l).filter (fun p => p.1 = s) =
      if x.1 = s then x :: l.filter (fun p => p.1 = s)
      else l.filter (fun p => p.1 = s) := by
  induction l with
  | nil =>
    unfold insertDesc
    by_cases h : x.1 = s <;> simp [List.filter_cons, h]
  | cons y ys ih =>
    unfold insertDesc
    by_cases h : y.1 ≤ x.1
    · rw [if_pos h]
      by_cases hx : x.1 = s <;> simp [List.filter_cons, hx]
    · rw [if_neg h]
      rw [List.filter_cons, ih]
      by_cases hy : y.1 = s
      · have hx : ¬ x.1 = s := fun hx => h (by omega)
        simp [hy, hx, List.filter_cons]
      · by_cases hx : x.1 = s <;> simp [hy, hx, List.filter_cons]

theorem filter_sortDesc (l : List (ℤ × α)) (s : ℤ) :
    (sortDesc l).filter (fun p => p.1 = s) = l.filter (fun p => p.1 = s) := by
  induction l with
  | nil => rfl
  | cons x xs ih =>
    unfold sortDesc
    rw [filter_insertDesc, List.filter_cons]
    by_cases hx : x.1 = s <;> simp [hx, ih]

theorem sortDesc_head_spec (l : List (ℤ × α)) (b : ℤ × α) (bs : List (ℤ × α))
    (h : sortDesc l = b :: bs) : b ∈ l ∧ ∀ c ∈ l, c.1 ≤ b.1 := by
  have hperm := sortDesc_perm l
  have hsorted := sortDesc_sorted l
  rw [h] at hperm hsorted
  constructor
  · exact hperm.subset (List.mem_cons_self b bs)
  · intro c hc
    have hc' : c ∈ b :: bs := hperm.mem_iff.mpr hc
    rcases List.mem_cons.mp hc' with hc' | hc'
    · rw [hc']
    · exact (List.pairwise_cons.mp hsorted).1 c hc'

end SortLemmas

theorem clamp_top_k_toNat_pos (k : ℤ) : 1 ≤ (clamp_top_k k).toNat := by
  unfold clamp_top_k
  by_cases h : k ≤ 0
  · rw [if_pos h]
    decide
  · rw [if_neg h]
    have : (1 : ℤ) ≤ min k 5 := le_min (by omega) (by omega)
    omega

theorem phrase_boost_nonneg (phrase question_norm : Str) :
    0 ≤ phrase_boost phrase question_norm := by
  unfold phrase_boost
  dsimp only
  split_ifs <;> norm_num

theorem score_match_nonneg (tokens entry_tokens : Finset Str) (boost : ℤ)
    (hb : 0 ≤ boost) : 0 ≤ score_match tokens entry_tokens boost := by
  unfold score_match
  positivity

theorem search_geo_eq_nil (entries : List GeoEntry) (question : Str) (k : ℤ)
    (h : geo_candidates entries question = []) :
    search_geo entries question k =
      { answer := "No relevant geo match found in the mock data.".toList
        top_matches := [], best_score := 0, matched_id := none } := by
  unfold search_geo
  dsimp only
  rw [h]
  rfl

theorem search_geo_eq_cons (entries : List GeoEntry) (question : Str) (k : ℤ)
    (b : ℤ × GeoEntry) (bs : List (ℤ × GeoEntry))
    (hs : sortDesc (geo_candidates entries question) = b :: bs) :
    search_geo entries question k =
      { answer := format_geo_answer b.2
        top_matches := ((b :: bs).take (clamp_top_k k).toNat).map
          (fun p => MatchSummary.geo (format_geo_match p.2 p.1))
        best_score := b.1, matched_id := none } := by
  unfold search_geo
  dsimp only
  rw [hs]

theorem search_regulation_eq_nil (blocks : List RegulationBlock) (question : Str)
    (k : ℤ) (article_ref : Option Str)
    (h : reg_candidates blocks question
      (if optStrTruthy article_ref then article_ref
       else match_article_reference question) = []) :
    search_regulation blocks question k article_ref =
      { answer := "No relevant regulation match found in the mock data.".toList
        top_matches := [], best_score := 0, matched_id := none } := by
  unfold search_regulation
  dsimp only
  rw [h]
  rfl

theorem search_regulation_eq_cons (blocks : List RegulationBlock) (question : Str)
    (k : ℤ) (article_ref : Option Str)
    (b : ℤ × RegulationBlock) (bs : List (ℤ × RegulationBlock))
    (hs : sortDesc (reg_candidates blocks question
      (if optStrTruthy article_ref then article_ref
       else match_article_reference question)) = b :: bs) :
    search_regulation blocks question k article_ref =
      { answer := format_regulation_answer b.2
        top_matches := ((b :: bs).take (clamp_top_k k).toNat).map
          (fun p => MatchSummary.reg (format_regulation_match p.2 p.1))
        best_score := b.1
        matched_id :=
          if optStrTruthy (if optStrTruthy article_ref then article_ref
              else match_article_reference question) ∧
            b.2.article_id = (if optStrTruthy article_ref then article_ref
              else match_article_reference question)
          then (if optStrTruthy article_ref then article_ref
            else match_article_reference question)
          else none } := by
  unfold search_regulation
  dsimp only
  rw [hs]

theorem geo_candidates_eq_nil_iff (entries : List GeoEntry) (question : Str) :
    geo_candidates entries question = [] ↔
      ∀ e ∈ entries,
        ¬ (0 < score_match (extract_keywords question).toFinset e.tokens
            (phrase_boost e.name (normalize_phrase question))) := by
  unfold geo_candidates
  dsimp only
  rw [List.filterMap_eq_nil_iff]
  constructor
  · intro h e he
    have := h e he
    by_cases hsc : score_match (extract_keywords question).toFinset e.tokens
        (phrase_boost e.name (normalize_phrase question)) ≠ 0
    · rw [if_pos hsc] at this
      cases this
    · omega
  · intro h e he
    have hnn := score_match_nonneg (extract_keywords question).toFinset e.tokens _
      (phrase_boost_nonneg e.name (normalize_phrase question))
    have hz : score_match (extract_keywords question).toFinset e.tokens
        (phrase_boost e.name (normalize_phrase question)) = 0 := by
      have := h e he
      omega
    rw [if_neg (by omega)]

theorem reg_candidates_eq_nil_iff (blocks : List RegulationBlock) (question : Str)
    (aref : Option Str) :
    reg_candidates blocks question aref = [] ↔
      ∀ b ∈ blocks,
        ¬ (0 < (if optStrTruthy aref ∧ b.article_id = aref
            then score_match (extract_keywords question).toFinset b.tokens
              (phrase_boost b.title (normalize_phrase question)) + 10
            else score_match (extract_keywords question).toFinset b.tokens
              (phrase_boost b.title (normalize_phrase question)))) := by
  unfold reg_candidates
  dsimp only
  rw [List.filterMap_eq_nil_iff]
  have hnn : ∀ b : RegulationBlock,
      0 ≤ (if optStrTruthy aref ∧ b.article_id = aref
        then score_match (extract_keywords question).toFinset b.tokens
          (phrase_boost b.title (normalize_phrase question)) + 10
        else score_match (extract_keywords question).toFinset b.tokens
          (phrase_boost b.title (normalize_phrase question))) := by
    intro b
    have := score_match_nonneg (extract_keywords question).toFinset b.tokens _
      (phrase_boost_nonneg b.title (normalize_phrase question))
    split_ifs <;> omega
  constructor
  · intro h b hb
    have := h b hb
    by_cases hsc : (if optStrTruthy aref ∧ b.article_id = aref
        then score_match (extract_keywords question).toFinset b.tokens
          (phrase_boost b.title (normalize_phrase question)) + 10
        else score_match (extract_keywords question).toFinset b.tokens
          (phrase_boost b.title (normalize_phrase question))) ≠ 0
    · rw [if_pos hsc] at this
      cases this
    · omega
  · intro h b hb
    have h1 := hnn b
    have h2 := h b hb
    rw [if_neg (by omega)]

/-- C7: over either source, if no candidate scores above zero the search
returns the "no relevant match" answer with score 0 and empty top-matches;
otherwise the top-matches are the first `clamp_top_k(k)` candidates of a
list that is a permutation of the candidates, sorted descending by score,
with ties kept in original dataset order (filtering by any score value
preserves the original order), and the first candidate — which attains the
maximum score — provides the answer and the head of the top-matches. -/
theorem search_topk_spec (entries : List GeoEntry) (blocks : List RegulationBlock)
    (question : Str) (k : ℤ) (article_ref : Option Str) :
    (geo_candidates entries question = [] →
      search_geo entries question k =
        { answer := "No relevant geo match found in the mock data.".toList
          top_matches := [], best_score := 0, matched_id := none }) ∧
    (geo_candidates entries question = [] ↔
      ∀ e ∈ entries,
        ¬ (0 < score_match (extract_keywords question).toFinset e.tokens
            (phrase_boost e.name (normalize_phrase question)))) ∧
    (geo_candidates entries question ≠ [] →
      ∃ sorted : List (ℤ × GeoEntry),
        sorted.Perm (geo_candidates entries question) ∧
        sorted.Pairwise (fun a b => b.1 ≤ a.1) ∧
        (∀ s : ℤ, sorted.filter (fun p => p.1 = s) =
          (geo_candidates entries question).filter (fun p => p.1 = s)) ∧
        (search_geo entries question k).top_matches =
          (sorted.take (clamp_top_k k).toNat).map
            (fun p => MatchSummary.geo (format_geo_match p.2 p.1)) ∧
        (∃ c ∈ geo_candidates entries question,
          (search_geo entries question k).best_score = c.1 ∧
          (search_geo entries question k).answer = format_geo_answer c.2 ∧
          (search_geo entries question k).top_matches.head? =
            some (MatchSummary.geo (format_geo_match c.2 c.1))) ∧
        (∀ c ∈ geo_candidates entries question,
          c.1 ≤ (search_geo entries question k).best_score)) ∧
    (reg_candidates blocks question
        (if optStrTruthy article_ref then article_ref
         else match_article_reference question) = [] →
      search_regulation blocks question k article_ref =
        { answer := "No relevant regulation match found in the mock data.".toList
          top_matches := [], best_score := 0, matched_id := none }) ∧
    (reg_candidates blocks question
        (if optStrTruthy article_ref then article_ref
         else match_article_reference question) = [] ↔
      ∀ b ∈ blocks,
        ¬ (0 < (if optStrTruthy (if optStrTruthy article_ref then article_ref
              else match_article_reference question) ∧
            b.article_id = (if optStrTruthy article_ref then article_ref
              else match_article_reference question)
          then score_match (extract_keywords question).toFinset b.tokens
              (phrase_boost b.title (normalize_phrase question)) + 10
          else score_match (extract_keywords question).toFinset b.tokens
              (phrase_boost b.title (normalize_phrase question))))) ∧
    (reg_candidates blocks question
        (if optStrTruthy article_ref then article_ref
         else match_article_reference question) ≠ [] →
      ∃ sorted : List (ℤ × RegulationBlock),
        sorted.Perm (reg_candidates blocks question
          (if optStrTruthy article_ref then article_ref
           else match_article_reference question)) ∧
        sorted.Pairwise (fun a b => b.1 ≤ a.1) ∧
        (∀ s : ℤ, sorted.filter (fun p => p.1 = s) =
          (reg_candidates blocks question
            (if optStrTruthy article_ref then article_ref
             else match_article_reference question)).filter (fun p => p.1 = s)) ∧
        (search_regulation blocks question k article_ref).top_matches =
          (sorted.take (clamp_top_k k).toNat).map
            (fun p => MatchSummary.reg (format_regulation_match p.2 p.1)) ∧
        (∃ c ∈ reg_candidates blocks question
            (if optStrTruthy article_ref then article_ref
             else match_article_reference question),
          (search_regulation blocks question k article_ref).best_score = c.1 ∧
          (search_regulation blocks question k article_ref).answer =
            format_regulation_answer c.2 ∧
          (search_regulation blocks question k article_ref).top_matches.head? =
            some (MatchSummary.reg (format_regulation_match c.2 c.1))) ∧
        (∀ c ∈ reg_candidates blocks question
            (if optStrTruthy article_ref then article_ref
             else match_article_reference question),
          c.1 ≤ (search_regulation blocks question k article_ref).best_score)) := by
  refine ⟨search_geo_eq_nil entries question k,
    geo_candidates_eq_nil_iff entries question, ?_,
    search_regulation_eq_nil blocks question k article_ref,
    reg_candidates_eq_nil_iff blocks question _, ?_⟩
  · intro hne
    rcases hs : sortDesc (geo_candidates entries question) with _ | ⟨b, bs⟩
    · exfalso
      have hp := sortDesc_perm (geo_candidates entries question)
      rw [hs] at hp
      exact hne hp.symm.eq_nil
    · have hgeo := search_geo_eq_cons entries question k b bs hs
      have hhead := sortDesc_head_spec _ b bs hs
      refine ⟨b :: bs, by rw [← hs]; exact sortDesc_perm _,
        by rw [← hs]; exact sortDesc_sorted _,
        fun s => by rw [← hs]; exact filter_sortDesc _ s,
        by rw [hgeo], ⟨b, hhead.1, by rw [hgeo], by rw [hgeo], ?_⟩,
        fun c hc => by rw [hgeo]; exact hhead.2 c hc⟩
      rw [hgeo]
      obtain ⟨m, hm⟩ : ∃ m, (clamp_top_k k).toNat = m + 1 :=
        ⟨(clamp_top_k k).toNat - 1, by have := clamp_top_k_toNat_pos k; omega⟩
      dsimp only
      rw [hm, List.take_succ_cons]
      rfl
  · intro hne
    rcases hs : sortDesc (reg_candidates blocks question
        (if optStrTruthy article_ref then article_ref
         else match_article_reference question)) with _ | ⟨b, bs⟩
    · exfalso
      have hp := sortDesc_perm (reg_candidates blocks question
        (if optStrTruthy article_ref then article_ref
         else match_article_reference question))
      rw [hs] at hp
      exact hne hp.symm.eq_nil
    · have hreg := search_regulation_eq_cons blocks question k article_ref b bs hs
      have hhead := sortDesc_head_spec _ b bs hs
      refine ⟨b :: bs, by rw [← hs]; exact sortDesc_perm _,
        by rw [← hs]; exact sortDesc_sorted _,
        fun s => by rw [← hs]; exact filter_sortDesc _ s,
        by rw [hreg], ⟨b, hhead.1, by rw [hreg], by rw [hreg], ?_⟩,
        fun c hc => by rw [hreg]; exact hhead.2 c hc⟩
      rw [hreg]
      obtain ⟨m, hm⟩ : ∃ m, (clamp_top_k k).toNat = m + 1 :=
        ⟨(clamp_top_k k).toNat - 1, by have := clamp_top_k_toNat_pos k; omega⟩
      dsimp only
      rw [hm, List.take_succ_cons]
      rfl

/-- Witness for C7: with an empty index no candidate scores above zero and
both searches return the no-match result. -/
theorem search_topk_spec_witness :
    search_geo [] "water".toList 3 =
      { answer := "No relevant geo match found in the mock data.".toList
        top_matches := [], best_score := 0, matched_id := none } ∧
    search_regulation [] "water".toList 3 none =
      { answer := "No relevant regulation match found in the mock data.".toList
        top_matches := [], best_score := 0, matched_id := none } :=
  ⟨(search_topk_spec [] [] "water".toList 3 none).1 rfl,
   (search_topk_spec [] [] "water".toList 3 none).2.2.2.1 rfl⟩

end AskLogic
